import Mathlib

/-!
# vulcan-session-auth: the `sauth` middleware

A shallow embedding of `src/sauth/sauth.go` and theorems about it.

Conventions of the embedding:

* A Go `string` is a finite sequence of characters, `GoString`. The package only
  compares strings for equality, concatenates them and splits them at the one-byte
  separators `"\n"` and `","`; none of its operations looks inside a character.
* `New` returns `(*AuthMiddleware, error)` with exactly one of the two non-nil; this is
  `Except GoString AuthMiddleware`, the error carrying its message and no middleware.
* `ServeHTTP` is straight-line code that issues calls on objects it does not own (the
  response writer, the session registry, the downstream handler). It is embedded as the
  sequence of those calls, in the order the code issues them (`Call`), and `replay`
  runs such a sequence on a model of the `net/http` response writer.
* Library code the package calls (`securecookie` decoding and encoding, the parsing of
  the `Authorization` header by `net/http`) is taken as a parameter (`Env`).
-/

namespace Sauth

/-! ## Strings -/

/-- A Go string. -/
abbrev GoString := List Char

/-- Go: `strings.Split(s, sep)` for a one-byte separator `sep` (the package calls it with
`"\n"` and with `","`): the pieces of `s` between successive occurrences of `sep`, in
order. The result is never empty: a string without `sep` gives the one piece `s`. -/
def Split (sep : Char) : GoString → List GoString
  | [] => [[]]
  | c :: cs =>
    if c = sep then [] :: Split sep cs
    else
      match Split sep cs with
      | [] => [[c]]
      | piece :: pieces => (c :: piece) :: pieces

/-! ## The credential store (`New`, `isAuthorized`, `String`, `FromOther`) -/

/-- Go: `type authKey struct { username string; password string }`. -/
structure authKey where
  username : GoString
  password : GoString
deriving DecidableEq, Repr

/-- Go: `type AuthMiddleware struct { Credentials string; authKeys []authKey }`. -/
structure AuthMiddleware where
  Credentials : GoString
  authKeys : List authKey
deriving DecidableEq, Repr

/-- One iteration of the loop of `New` over the entries of the configuration string:
the entry is split at `","`; it is ignored when `len(key) != 2 || key[0] == "" ||
key[1] == ""` and appended to `authKeys` otherwise. -/
def New.step (authKeys : List authKey) (entry : GoString) : List authKey :=
  let key := Split ',' entry
  if key.length ≠ 2 ∨ key.getD 0 [] = [] ∨ key.getD 1 [] = [] then
    authKeys
  else
    authKeys ++ [{ username := key.getD 0 [], password := key.getD 1 [] }]

/-- Go: `func New(credentials string) (*AuthMiddleware, error)`. -/
def New (credentials : GoString) : Except GoString AuthMiddleware :=
  let authKeys := (Split '\n' credentials).foldl New.step []
  if authKeys.length = 0 then
    .error "No valid credential was provided".toList
  else
    .ok { Credentials := credentials, authKeys := authKeys }

/-- The loop of `isAuthorized` over `c.authKeys`, returning at the first match. -/
def isAuthorized.loop (username password : GoString) : List authKey → Bool
  | [] => false
  | c :: rest =>
    if c.username = username ∧ c.password = password then true
    else isAuthorized.loop username password rest

/-- Go: `func isAuthorized(c AuthMiddleware, username, password string) bool`. -/
def isAuthorized (c : AuthMiddleware) (username password : GoString) : Bool :=
  isAuthorized.loop username password c.authKeys

/-- Go: `fmt.Sprintf("username=%v, pass=%v\n", username, pass)` on two strings. -/
def Sprintf_username_pass (username pass : GoString) : GoString :=
  "username=".toList ++ username ++ ", pass=".toList ++ pass ++ "\n".toList

/-- Go: `func (c *AuthMiddleware) String() string`. -/
def AuthMiddleware.String (c : AuthMiddleware) : GoString :=
  c.authKeys.foldl
    (fun desc key => desc ++ Sprintf_username_pass key.username "********".toList) []

/-- Go: `func FromOther(c AuthMiddleware) (plugin.Middleware, error)`. -/
def FromOther (c : AuthMiddleware) : Except GoString AuthMiddleware :=
  New c.Credentials

/-! ## The request handler (`ServeHTTP`) -/

/-- Go: `session.Values`, a map; here from string keys to string values, as an
association list read with `Values.get` and written with `Values.set`. -/
abbrev Values := List (GoString × GoString)

/-- Go: `m[k]` on a map (`none` when the key is absent). -/
def Values.get (m : Values) (k : GoString) : Option GoString :=
  (m.find? (fun e => e.1 = k)).map Prod.snd

/-- Go: `m[k] = v` on a map. -/
def Values.set (m : Values) (k v : GoString) : Values :=
  (k, v) :: m.filter (fun e => e.1 ≠ k)

/-- Go: `sessions.Session` (gorilla), of which the package uses `Values` only. -/
structure Session where
  Values : Values
deriving DecidableEq, Repr

/-- Go: `http.Request`, of which the package reads the `Authorization` header (through
`r.BasicAuth()`) and the cookie named `session` (through `store.Get`); `rest` stands
for everything else in the request, which the package never reads. -/
structure Request where
  authorization : Option GoString
  sessionCookie : Option GoString
  rest : GoString
deriving DecidableEq, Repr

/-- Library code the handler calls and this repository does not contain, as parameters:
`decode` is `securecookie.DecodeMulti` with the store's secret on the value of the
`session` cookie (`none` on any error: bad signature, expired timestamp, undecodable
payload); `encode` is the text of the `Set-Cookie` header `store.Save` writes for the
given values (`none` when encoding fails); `parseBasicAuth` is what `net/http` makes
of a non-empty `Authorization` value (`none` when it is not well-formed Basic auth). -/
structure Env where
  decode : GoString → Option Values
  encode : Values → Option GoString
  parseBasicAuth : GoString → Option (GoString × GoString)

/-- Go: `session, _ := store.Get(r, "session")` on the package's `CookieStore`: the
decoded session of the cookie, or a new session with empty `Values` when the cookie
is absent or does not decode (the error is dropped by the caller). -/
def Env.Get (env : Env) (r : Request) : Session :=
  match r.sessionCookie with
  | none => { Values := [] }
  | some c =>
    match env.decode c with
    | none => { Values := [] }
    | some v => { Values := v }

/-- Go: `username, password, ok := r.BasicAuth()`: not ok, with empty strings, when the
`Authorization` header is absent or empty or does not parse. -/
def Env.BasicAuth (env : Env) (r : Request) : GoString × GoString × Bool :=
  match r.authorization with
  | none => ([], [], false)
  | some auth =>
    if auth = [] then ([], [], false)
    else
      match env.parseBasicAuth auth with
      | none => ([], [], false)
      | some (username, password) => (username, password, true)

/-- A call `ServeHTTP` issues on an object outside the package. -/
inductive Call where
  /-- Go: `w.WriteHeader(code)`. -/
  | WriteHeader (code : Nat)
  /-- Go: `w.Header().Set(key, value)`. -/
  | HeaderSet (key value : GoString)
  /-- Go: `sessions.Save(r, w)`, with the state of the request's session at the call. -/
  | SessionsSave (session : Session)
  /-- Go: `a.next.ServeHTTP(w, r)`. -/
  | Next (r : Request)
deriving DecidableEq, Repr

/-- Go: `http.StatusUnauthorized`. -/
def StatusUnauthorized : Nat := 401

/-- Go: `type AuthHandler struct { cfg AuthMiddleware; next http.Handler }`; the
downstream handler `next` is outside the package and appears as `Call.Next`. -/
structure AuthHandler where
  cfg : AuthMiddleware
deriving DecidableEq, Repr

/-- Go: `func (c *AuthMiddleware) NewHandler(next http.Handler) (http.Handler, error)`. -/
def AuthMiddleware.NewHandler (c : AuthMiddleware) : Except GoString AuthHandler :=
  .ok { cfg := c }

/-- Go: `func (a *AuthHandler) ServeHTTP(w http.ResponseWriter, r *http.Request)`: the
calls it issues on `w`, on the session registry and on `a.next`, in order. -/
def AuthHandler.ServeHTTP (env : Env) (a : AuthHandler) (r : Request) : List Call :=
  let session := env.Get r
  if session.Values.get "active".toList ≠ some "true".toList then
    let (username, password, ok) := env.BasicAuth r
    if !ok || !isAuthorized a.cfg username password then
      [Call.WriteHeader StatusUnauthorized,
       Call.HeaderSet "WWW-Authenticate".toList "Basic realm=\"Please log in\"".toList]
    else
      let session := { session with Values := session.Values.set "active".toList "true".toList }
      [Call.SessionsSave session, Call.Next r]
  else
    [Call.Next r]

/-! ## The response writer of `net/http` -/

/-- Go: `http.Header`, as the list of its key and value lines. -/
abbrev Header := List (GoString × GoString)

/-- Go: `h.Set(key, value)`: replaces the values of `key`. -/
def Header.Set (h : Header) (key value : GoString) : Header :=
  h.filter (fun e => e.1 ≠ key) ++ [(key, value)]

/-- Go: `h.Add(key, value)`: appends a value to those of `key`. -/
def Header.Add (h : Header) (key value : GoString) : Header :=
  h ++ [(key, value)]

/-- Go: `h.Get(key)`: the first value of `key`, if any. -/
def Header.Get (h : Header) (key : GoString) : Option GoString :=
  (h.find? (fun e => e.1 = key)).map Prod.snd

/-- The `http.ResponseWriter` a `net/http` server hands to a handler: `header` is the
map `w.Header()` returns; the first `WriteHeader` fixes the status and takes a copy
of the map (`sent`), which is what goes to the client; later changes of `header`
are not sent, and later calls of `WriteHeader` do nothing. (The server clones the map
in `WriteHeader` when the handler already holds it, and otherwise in the first
`Header()` call after `WriteHeader`, before the handler can change it: in both cases
the copy is the map as it was at `WriteHeader`.) -/
structure ResponseWriter where
  header : Header
  wroteHeader : Bool
  status : Nat
  sent : Header
deriving DecidableEq, Repr

/-- The response writer at the start of a request. -/
def ResponseWriter.fresh : ResponseWriter :=
  { header := [], wroteHeader := false, status := 0, sent := [] }

/-- Go: `w.WriteHeader(code)` on the server's response writer. -/
def ResponseWriter.WriteHeader (w : ResponseWriter) (code : Nat) : ResponseWriter :=
  if w.wroteHeader then w
  else { w with wroteHeader := true, status := code, sent := w.header }

/-- The effect of one call on the response writer, `next` being the downstream
handler. `sessions.Save` adds a `Set-Cookie` line with the encoded session to
`w.Header()`, and nothing when the encoding fails. -/
def Call.run (env : Env) (next : ResponseWriter → Request → ResponseWriter)
    (w : ResponseWriter) : Call → ResponseWriter
  | .WriteHeader code => w.WriteHeader code
  | .HeaderSet key value => { w with header := w.header.Set key value }
  | .SessionsSave session =>
    match env.encode session.Values with
    | none => w
    | some cookie => { w with header := w.header.Add "Set-Cookie".toList cookie }
  | .Next r => next w r

/-- Runs a sequence of calls on a response writer, in order. -/
def replay (env : Env) (next : ResponseWriter → Request → ResponseWriter)
    (w : ResponseWriter) (calls : List Call) : ResponseWriter :=
  calls.foldl (Call.run env next) w

/-- What the server does when the handler has returned: a handler that never wrote a
header gets `WriteHeader(200)`. -/
def ResponseWriter.finish (w : ResponseWriter) : ResponseWriter :=
  w.WriteHeader 200

/-- The response of the server to request `r` with `a.ServeHTTP` as its handler: the
calls of `ServeHTTP` replayed on a fresh response writer, then `finish`. -/
def respond (env : Env) (next : ResponseWriter → Request → ResponseWriter)
    (a : AuthHandler) (r : Request) : ResponseWriter :=
  (replay env next ResponseWriter.fresh (a.ServeHTTP env r)).finish

/-! ## Well-formed lines of a configuration string -/

/-- The string `line` is a line of `s`: it has no newline, it starts at the start of
`s` or right after a newline, and it ends at the end of `s` or right before a
newline. -/
def IsLine (s line : GoString) : Prop :=
  '\n' ∉ line ∧
    ∃ a b : GoString, s = a ++ line ++ b ∧
      (a = [] ∨ ∃ c, a = c ++ ['\n']) ∧ (b = [] ∨ ∃ c, b = '\n' :: c)

/-- The configuration string `s` has a well-formed line with username `u` and password
`p`: the line `u,p`, whose two fields are not empty and hold no comma. -/
def WellFormed (s u p : GoString) : Prop :=
  IsLine s (u ++ ',' :: p) ∧ u ≠ [] ∧ p ≠ [] ∧ ',' ∉ u ∧ ',' ∉ p

/-! ## Sample values -/

/-- The configuration of the package's tests: `"user,pass"`. -/
def sampleConfig : GoString := "user,pass".toList

/-- A sample environment: the cookie value `"good"` decodes to a session with
`active = "true"` and every other value fails to decode; the `Authorization` values
of `user:pass` and of `user:wrong` parse and every other value is malformed. -/
def sampleEnv : Env where
  decode := fun c => if c = "good".toList then some [("active".toList, "true".toList)] else none
  encode := fun v => if v = [("active".toList, "true".toList)] then some "session=good".toList else none
  parseBasicAuth := fun auth =>
    if auth = "Basic dXNlcjpwYXNz".toList then some ("user".toList, "pass".toList)
    else if auth = "Basic dXNlcjp3cm9uZw==".toList then some ("user".toList, "wrong".toList)
    else none

/-- A sample handler, configured with the one pair `user`, `pass`. -/
def sampleHandler : AuthHandler :=
  { cfg := { Credentials := sampleConfig,
             authKeys := [{ username := "user".toList, password := "pass".toList }] } }

/-- A second sample middleware: the username of `sampleHandler`, another password. -/
def sampleOther : AuthMiddleware :=
  { Credentials := "user,secret".toList,
    authKeys := [{ username := "user".toList, password := "secret".toList }] }

/-- A request without cookie and without `Authorization` header. -/
def sampleBare : Request :=
  { authorization := none, sessionCookie := none, rest := [] }

/-- A request without cookie, with the Basic auth of `user:wrong`. -/
def sampleWrong : Request :=
  { authorization := some "Basic dXNlcjp3cm9uZw==".toList, sessionCookie := none, rest := [] }

/-- A request with a cookie that does not decode and the malformed `Authorization`
value of the package's tests. -/
def sampleMalformed : Request :=
  { authorization := some "blablabla=".toList, sessionCookie := some "forged".toList,
    rest := [] }

/-- A request without cookie, with the Basic auth of `user:pass`. -/
def sampleLogin : Request :=
  { authorization := some "Basic dXNlcjpwYXNz".toList, sessionCookie := none, rest := [] }

/-- A request with the cookie of an active session and no `Authorization` header. -/
def sampleReturning : Request :=
  { authorization := none, sessionCookie := some "good".toList, rest := [] }

/-- A request with the cookie of an active session and the Basic auth of
`user:wrong`. -/
def sampleReturningWrong : Request :=
  { authorization := some "Basic dXNlcjp3cm9uZw==".toList,
    sessionCookie := some "good".toList, rest := [] }

/-- A sample downstream handler: answers 200. -/
def sampleNext (w : ResponseWriter) (_ : Request) : ResponseWriter :=
  w.WriteHeader 200

/-! ## Lemmas on `Split` -/

theorem Split_ne_nil (sep : Char) (s : GoString) : Split sep s ≠ [] := by
  cases s with
  | nil => simp [Split]
  | cons c cs =>
    unfold Split
    split_ifs
    · simp
    · split <;> simp

theorem Split_nil (sep : Char) : Split sep [] = [[]] := rfl

theorem Split_cons_sep (sep : Char) (s : GoString) :
    Split sep (sep :: s) = [] :: Split sep s := by
  simp [Split]

theorem Split_cons_ne {sep c : Char} (h : c ≠ sep) (s : GoString) :
    ∃ piece pieces, Split sep s = piece :: pieces ∧
      Split sep (c :: s) = (c :: piece) :: pieces := by
  cases hs : Split sep s with
  | nil => exact absurd hs (Split_ne_nil sep s)
  | cons piece pieces =>
    refine ⟨piece, pieces, rfl, ?_⟩
    rw [Split, if_neg h, hs]

/-- A string without the separator is its own single piece (Go: `Index` finds nothing
and the loop of `genSplit` ends at once). -/
theorem Split_of_not_mem {sep : Char} {s : GoString} (h : sep ∉ s) : Split sep s = [s] := by
  induction s with
  | nil => rfl
  | cons c cs ih =>
    have hc : c ≠ sep := fun e => h (by simp [e])
    have hcs : sep ∉ cs := fun e => h (List.mem_cons_of_mem _ e)
    obtain ⟨piece, pieces, h1, h2⟩ := Split_cons_ne hc cs
    rw [ih hcs] at h1
    cases h1
    exact h2

/-- The first piece ends at the first separator and the rest of the string is split
in turn (Go: one round of the loop of `genSplit`). -/
theorem Split_append_sep {sep : Char} {a : GoString} (h : sep ∉ a) (b : GoString) :
    Split sep (a ++ sep :: b) = a :: Split sep b := by
  induction a with
  | nil => simpa using Split_cons_sep sep b
  | cons c cs ih =>
    have hc : c ≠ sep := fun e => h (by simp [e])
    have hcs : sep ∉ cs := fun e => h (List.mem_cons_of_mem _ e)
    obtain ⟨piece, pieces, h1, h2⟩ := Split_cons_ne hc (cs ++ sep :: b)
    rw [ih hcs] at h1
    cases h1
    simpa using h2

/-- The first occurrence of a character in a string that has it. -/
theorem exists_first_sep {sep : Char} {s : GoString} (h : sep ∈ s) :
    ∃ a b, s = a ++ sep :: b ∧ sep ∉ a := by
  induction s with
  | nil => simp at h
  | cons c cs ih =>
    by_cases hc : c = sep
    · exact ⟨[], cs, by simp [hc], by simp⟩
    · have hcs : sep ∈ cs := by
        rcases List.mem_cons.mp h with e | e
        · exact absurd e.symm hc
        · exact e
      obtain ⟨a, b, hab, ha⟩ := ih hcs
      refine ⟨c :: a, b, by simp [hab], ?_⟩
      intro hm
      rcases List.mem_cons.mp hm with e | e
      · exact hc e.symm
      · exact ha e

/-- The two cases of `Split`. -/
theorem Split_cases (sep : Char) (s : GoString) :
    (sep ∉ s ∧ Split sep s = [s]) ∨
      ∃ a b, s = a ++ sep :: b ∧ sep ∉ a ∧ Split sep s = a :: Split sep b := by
  by_cases h : sep ∈ s
  · obtain ⟨a, b, hab, ha⟩ := exists_first_sep h
    exact Or.inr ⟨a, b, hab, ha, by rw [hab, Split_append_sep ha]⟩
  · exact Or.inl ⟨h, Split_of_not_mem h⟩

/-- The first separator of a string is where it is. -/
theorem first_sep_unique {sep : Char} {a a' b b' : GoString} (ha : sep ∉ a) (ha' : sep ∉ a')
    (h : a ++ sep :: b = a' ++ sep :: b') : a = a' ∧ b = b' := by
  induction a generalizing a' with
  | nil =>
    cases a' with
    | nil => simpa using h
    | cons c cs =>
      simp at h
      exact absurd (by simp [h.1]) ha'
  | cons c cs ih =>
    cases a' with
    | nil =>
      simp at h
      exact absurd (by simp [h.1]) ha
    | cons c' cs' =>
      simp at h
      have hcs : sep ∉ cs := fun e => ha (List.mem_cons_of_mem _ e)
      have hcs' : sep ∉ cs' := fun e => ha' (List.mem_cons_of_mem _ e)
      obtain ⟨e1, e2⟩ := ih hcs hcs' h.2
      exact ⟨by rw [h.1, e1], e2⟩

/-- The string splits into exactly the two pieces `u`, `p` when it is `u`, the
separator, `p`, with no separator inside `u` or `p`. -/
theorem Split_eq_pair_iff (sep : Char) (s u p : GoString) :
    Split sep s = [u, p] ↔ s = u ++ sep :: p ∧ sep ∉ u ∧ sep ∉ p := by
  constructor
  · intro h
    rcases Split_cases sep s with ⟨_, h1⟩ | ⟨a, b, hab, ha, h1⟩
    · rw [h1] at h
      simp at h
    · rw [h1] at h
      simp only [List.cons.injEq] at h
      obtain ⟨e1, e2⟩ := h
      subst e1
      rcases Split_cases sep b with ⟨hb, h2⟩ | ⟨a2, b2, _, _, h2⟩
      · rw [h2] at e2
        simp at e2
        subst e2
        exact ⟨hab, ha, hb⟩
      · rw [h2] at e2
        simp at e2
        exact absurd e2.2 (Split_ne_nil sep b2)
  · rintro ⟨rfl, hu, hp⟩
    rw [Split_append_sep hu, Split_of_not_mem hp]

/-- No piece of a split holds the separator. -/
theorem not_mem_of_mem_Split (sep : Char) :
    ∀ (n : Nat) (s : GoString), s.length ≤ n → ∀ piece ∈ Split sep s, sep ∉ piece := by
  intro n
  induction n with
  | zero =>
    intro s hs piece hp
    have : s = [] := List.length_eq_zero.mp (Nat.le_zero.mp hs)
    subst this
    simp [Split] at hp
    simp [hp]
  | succ n ih =>
    intro s hs piece hp
    rcases Split_cases sep s with ⟨h0, h1⟩ | ⟨a, b, hab, ha, h1⟩
    · rw [h1] at hp
      simp at hp
      rw [hp]
      exact h0
    · rw [h1] at hp
      rcases List.mem_cons.mp hp with e | e
      · rw [e]
        exact ha
      · refine ih b ?_ piece e
        have : s.length = a.length + (b.length + 1) := by rw [hab]; simp
        omega

/-- The pieces of a split are the stretches of the string without separator that are
delimited by separators or by the ends of the string. -/
theorem mem_Split_iff (sep : Char) :
    ∀ (n : Nat) (s : GoString), s.length ≤ n → ∀ line : GoString,
      (line ∈ Split sep s ↔
        sep ∉ line ∧ ∃ a b : GoString, s = a ++ line ++ b ∧
          (a = [] ∨ ∃ c, a = c ++ [sep]) ∧ (b = [] ∨ ∃ c, b = sep :: c)) := by
  intro n
  induction n with
  | zero =>
    intro s hs line
    have : s = [] := List.length_eq_zero.mp (Nat.le_zero.mp hs)
    subst this
    constructor
    · intro h
      simp [Split] at h
      subst h
      exact ⟨by simp, [], [], by simp, Or.inl rfl, Or.inl rfl⟩
    · rintro ⟨_, a, b, hab, _, _⟩
      have : line = [] := by
        have h := congrArg List.length hab
        simp at h
        exact List.length_eq_zero.mp (by omega)
      simp [this, Split]
  | succ n ih =>
    intro s hs line
    rcases Split_cases sep s with ⟨h0, h1⟩ | ⟨a0, b0, hab0, ha0, h1⟩
    · rw [h1]
      constructor
      · intro h
        simp at h
        subst h
        exact ⟨h0, [], [], by simp, Or.inl rfl, Or.inl rfl⟩
      · rintro ⟨_, a, b, hab, hl, hr⟩
        have ha : a = [] := by
          rcases hl with e | ⟨c, e⟩
          · exact e
          · exact absurd (by rw [hab, e]; simp) h0
        have hb : b = [] := by
          rcases hr with e | ⟨c, e⟩
          · exact e
          · exact absurd (by rw [hab, e]; simp) h0
        subst ha hb
        simp at hab
        simp [hab]
    · have hlen : b0.length ≤ n := by
        have : s.length = a0.length + (b0.length + 1) := by rw [hab0]; simp
        omega
      rw [h1]
      constructor
      · intro h
        rcases List.mem_cons.mp h with e | e
        · subst e
          exact ⟨ha0, [], sep :: b0, by simpa using hab0, Or.inl rfl, Or.inr ⟨b0, rfl⟩⟩
        · obtain ⟨hn, a, b, hab, hl, hr⟩ := (ih b0 hlen line).mp e
          refine ⟨hn, a0 ++ sep :: a, b, by rw [hab0, hab]; simp, Or.inr ?_, hr⟩
          rcases hl with e | ⟨c, e⟩
          · exact ⟨a0, by simp [e]⟩
          · exact ⟨a0 ++ sep :: c, by simp [e]⟩
      · rintro ⟨hn, a, b, hab, hl, hr⟩
        rcases hl with e | ⟨c, e⟩
        · subst e
          rcases hr with e | ⟨d, e⟩
          · subst e
            have hs : s = line := by simpa using hab
            rw [hs] at hab0
            exact absurd (by rw [hab0]; simp) hn
          · subst e
            have h2 : a0 ++ sep :: b0 = line ++ sep :: d := by rw [← hab0, hab]; simp
            obtain ⟨e1, _⟩ := first_sep_unique ha0 hn h2
            simp [e1]
        · subst e
          have h2 : a0 ++ sep :: b0 = c ++ sep :: (line ++ b) := by rw [← hab0, hab]; simp
          apply List.mem_cons_of_mem
          apply (ih b0 hlen line).mpr
          refine ⟨hn, ?_⟩
          by_cases hc : sep ∈ c
          · obtain ⟨c1, c2, hc12, hc1⟩ := exists_first_sep hc
            have h3 : a0 ++ sep :: b0 = c1 ++ sep :: (c2 ++ sep :: (line ++ b)) := by
              rw [h2, hc12]; simp
            obtain ⟨_, e2⟩ := first_sep_unique ha0 hc1 h3
            exact ⟨c2 ++ [sep], b, by rw [e2]; simp, Or.inr ⟨c2, rfl⟩, hr⟩
          · obtain ⟨_, e2⟩ := first_sep_unique ha0 hc h2
            exact ⟨[], b, by rw [e2]; simp, Or.inl rfl, hr⟩

/-- The lines of a configuration string are the pieces of its split at newlines. -/
theorem isLine_iff (s line : GoString) : IsLine s line ↔ line ∈ Split '\n' s :=
  (mem_Split_iff '\n' s.length s (Nat.le_refl _) line).symm

/-! ## Lemmas on `New` and `isAuthorized` -/

/-- The entry passes the test of `New` exactly when it splits into two non-empty
fields. -/
theorem mem_step_iff (acc : List authKey) (entry : GoString) (k : authKey) :
    k ∈ New.step acc entry ↔
      k ∈ acc ∨ (Split ',' entry = [k.username, k.password] ∧
        k.username ≠ [] ∧ k.password ≠ []) := by
  unfold New.step
  rcases hk : Split ',' entry with _ | ⟨x, _ | ⟨y, _ | ⟨z, t⟩⟩⟩
  · simp
  · simp
  · by_cases hx : x = []
    · simp only [hx]
      constructor
      · intro h
        exact Or.inl (by simpa using h)
      · rintro (h | ⟨h1, h2, _⟩)
        · simpa using h
        · simp at h1
          exact absurd h1.1 h2
    · by_cases hy : y = []
      · simp only [hy]
        constructor
        · intro h
          exact Or.inl (by simpa using h)
        · rintro (h | ⟨h1, _, h3⟩)
          · simpa using h
          · simp at h1
            exact absurd h1.2 h3
      · simp [hx, hy]
        constructor
        · rintro (h | h)
          · exact Or.inl h
          · subst h
            exact Or.inr ⟨⟨rfl, rfl⟩, hx, hy⟩
        · rintro (h | ⟨⟨h1, h2⟩, _, _⟩)
          · exact Or.inl h
          · right
            cases k
            simp at h1 h2
            simp [h1, h2]
  · simp

theorem mem_foldl_step_iff (entries : List GoString) (acc : List authKey) (k : authKey) :
    k ∈ entries.foldl New.step acc ↔
      k ∈ acc ∨ ∃ entry ∈ entries, Split ',' entry = [k.username, k.password] ∧
        k.username ≠ [] ∧ k.password ≠ [] := by
  induction entries generalizing acc with
  | nil => simp
  | cons e es ih =>
    rw [List.foldl_cons, ih, mem_step_iff]
    constructor
    · rintro ((h | h) | ⟨entry, hm, h⟩)
      · exact Or.inl h
      · exact Or.inr ⟨e, by simp, h⟩
      · exact Or.inr ⟨entry, by simp [hm], h⟩
    · rintro (h | ⟨entry, hm, h⟩)
      · exact Or.inl (Or.inl h)
      · rcases List.mem_cons.mp hm with e1 | e1
        · subst e1
          exact Or.inl (Or.inr h)
        · exact Or.inr ⟨entry, e1, h⟩

/-- A well-formed line, in terms of the two splits. -/
theorem wellFormed_iff (s u p : GoString) :
    WellFormed s u p ↔
      ∃ line ∈ Split '\n' s, Split ',' line = [u, p] ∧ u ≠ [] ∧ p ≠ [] := by
  constructor
  · rintro ⟨hl, hu, hp, hcu, hcp⟩
    exact ⟨u ++ ',' :: p, (isLine_iff _ _).mp hl,
      (Split_eq_pair_iff ',' _ u p).mpr ⟨rfl, hcu, hcp⟩, hu, hp⟩
  · rintro ⟨line, hm, hsp, hu, hp⟩
    obtain ⟨e, hcu, hcp⟩ := (Split_eq_pair_iff ',' line u p).mp hsp
    subst e
    exact ⟨(isLine_iff _ _).mpr hm, hu, hp, hcu, hcp⟩

/-- The keys `New` collects are the well-formed lines of the string. -/
theorem mem_collected_iff (s : GoString) (k : authKey) :
    k ∈ (Split '\n' s).foldl New.step [] ↔ WellFormed s k.username k.password := by
  rw [mem_foldl_step_iff, wellFormed_iff]
  simp

theorem New_ok_iff (s : GoString) (a : AuthMiddleware) :
    New s = .ok a ↔
      a.Credentials = s ∧ a.authKeys = (Split '\n' s).foldl New.step [] ∧ a.authKeys ≠ [] := by
  unfold New
  by_cases h : ((Split '\n' s).foldl New.step []).length = 0
  · have h0 : (Split '\n' s).foldl New.step [] = [] := List.length_eq_zero.mp h
    simp only [h, if_true]
    constructor
    · intro e
      cases e
    · rintro ⟨_, h1, h2⟩
      exact absurd (h1.trans h0) h2
  · have h0 : (Split '\n' s).foldl New.step [] ≠ [] := fun e => h (by rw [e]; rfl)
    simp only [h, if_false]
    constructor
    · intro e
      cases e
      exact ⟨rfl, rfl, h0⟩
    · rintro ⟨h1, h2, _⟩
      cases a
      simp at h1 h2
      subst h1 h2
      rfl

theorem New_error_iff (s : GoString) (e : GoString) :
    New s = .error e ↔
      e = "No valid credential was provided".toList ∧ (Split '\n' s).foldl New.step [] = [] := by
  unfold New
  by_cases h : ((Split '\n' s).foldl New.step []).length = 0
  · have h0 : (Split '\n' s).foldl New.step [] = [] := List.length_eq_zero.mp h
    simp only [h, if_true]
    constructor
    · intro e1
      cases e1
      exact ⟨rfl, h0⟩
    · rintro ⟨h1, _⟩
      rw [h1]
  · have h0 : (Split '\n' s).foldl New.step [] ≠ [] := fun e => h (by rw [e]; rfl)
    simp only [h, if_false]
    constructor
    · intro e1
      cases e1
    · rintro ⟨_, h2⟩
      exact absurd h2 h0

theorem loop_iff (u p : GoString) (keys : List authKey) :
    isAuthorized.loop u p keys = true ↔ ({ username := u, password := p } : authKey) ∈ keys := by
  induction keys with
  | nil => simp [isAuthorized.loop]
  | cons c rest ih =>
    unfold isAuthorized.loop
    by_cases h : c.username = u ∧ c.password = p
    · have : c = { username := u, password := p } := by
        cases c
        simp at h
        simp [h.1, h.2]
      simp [h, this]
    · have : ({ username := u, password := p } : authKey) ≠ c := by
        intro e
        apply h
        rw [← e]
        exact ⟨rfl, rfl⟩
      simp only [h, if_false, ih, List.mem_cons, this, false_or]

theorem isAuthorized_iff (c : AuthMiddleware) (u p : GoString) :
    isAuthorized c u p = true ↔ ({ username := u, password := p } : authKey) ∈ c.authKeys :=
  loop_iff u p c.authKeys

/-- A string none of whose lines passes the test of `New` has no well-formed line. -/
theorem not_wellFormed_of_lines (s : GoString)
    (h : ∀ line ∈ Split '\n' s, (Split ',' line).length ≠ 2 ∨
      (Split ',' line).getD 0 [] = [] ∨ (Split ',' line).getD 1 [] = []) :
    ¬ ∃ u p, WellFormed s u p := by
  rintro ⟨u, p, hw⟩
  obtain ⟨line, hm, hsp, hu, hp⟩ := (wellFormed_iff s u p).mp hw
  rcases h line hm with h1 | h1 | h1
  · exact h1 (by rw [hsp]; rfl)
  · rw [hsp] at h1
    exact hu h1
  · rw [hsp] at h1
    exact hp h1

/-- A line of a well-formed pair holds exactly one comma. -/
theorem count_comma_of_wellFormed {s u p : GoString} (h : WellFormed s u p) :
    IsLine s (u ++ ',' :: p) ∧ (u ++ ',' :: p).count ',' = 1 := by
  obtain ⟨hl, _, _, hcu, hcp⟩ := h
  refine ⟨hl, ?_⟩
  rw [List.count_append, List.count_cons_self, List.count_eq_zero.mpr hcu,
    List.count_eq_zero.mpr hcp]

/-! ## The credential store: theorems -/

/-- C1: for every configuration string with at least one well-formed line, `New`
succeeds, and `isAuthorized` on the middleware it returns is true on a pair `(u, p)`
exactly when `u`, `p` are the username and password of a well-formed line of the
string. -/
theorem C1_New_authorizes_exactly_wellFormed (s : GoString)
    (h : ∃ u p, WellFormed s u p) :
    ∃ a, New s = .ok a ∧ ∀ u p, (isAuthorized a u p = true ↔ WellFormed s u p) := by
  obtain ⟨u0, p0, h0⟩ := h
  have hne : (Split '\n' s).foldl New.step [] ≠ [] := by
    intro e
    have hm := (mem_collected_iff s { username := u0, password := p0 }).mpr h0
    rw [e] at hm
    simp at hm
  refine ⟨{ Credentials := s, authKeys := (Split '\n' s).foldl New.step [] },
    (New_ok_iff s _).mpr ⟨rfl, rfl, hne⟩, ?_⟩
  intro u p
  rw [isAuthorized_iff]
  exact mem_collected_iff s { username := u, password := p }

theorem C1_witness :
    (∃ u p, WellFormed sampleConfig u p) ∧
      ∃ a, New sampleConfig = .ok a ∧
        ∀ u p, (isAuthorized a u p = true ↔ WellFormed sampleConfig u p) :=
  have h : ∃ u p, WellFormed sampleConfig u p :=
    ⟨"user".toList, "pass".toList,
      (wellFormed_iff _ _ _).mpr ⟨"user,pass".toList, by decide, by decide, by decide, by decide⟩⟩
  ⟨h, C1_New_authorizes_exactly_wellFormed sampleConfig h⟩

/-- C2: for every configuration string with no well-formed line, `New` returns the
error `No valid credential was provided` and no middleware; so it does on a string
each of whose lines has no comma or more than one. -/
theorem C2_New_fails_without_wellFormed (s : GoString)
    (h : (¬ ∃ u p, WellFormed s u p) ∨ ∀ line, IsLine s line → line.count ',' ≠ 1) :
    New s = .error "No valid credential was provided".toList ∧ ∀ a, New s ≠ .ok a := by
  have h1 : ¬ ∃ u p, WellFormed s u p := by
    rcases h with h | h
    · exact h
    · rintro ⟨u, p, hw⟩
      obtain ⟨hl, hc⟩ := count_comma_of_wellFormed hw
      exact h _ hl hc
  have h2 : (Split '\n' s).foldl New.step [] = [] := by
    apply List.eq_nil_iff_forall_not_mem.mpr
    intro k hk
    exact h1 ⟨k.username, k.password, (mem_collected_iff s k).mp hk⟩
  have h3 := (New_error_iff s _).mpr ⟨rfl, h2⟩
  refine ⟨h3, ?_⟩
  intro a e
  rw [h3] at e
  cases e

theorem C2_witness :
    (New "".toList = .error "No valid credential was provided".toList ∧
        ∀ a, New "".toList ≠ .ok a) ∧
      (New "user,".toList = .error "No valid credential was provided".toList ∧
        ∀ a, New "user,".toList ≠ .ok a) ∧
      (New ",pass".toList = .error "No valid credential was provided".toList ∧
        ∀ a, New ",pass".toList ≠ .ok a) ∧
      (New "user\na,b,c\n".toList = .error "No valid credential was provided".toList ∧
        ∀ a, New "user\na,b,c\n".toList ≠ .ok a) :=
  ⟨C2_New_fails_without_wellFormed _ (Or.inl (not_wellFormed_of_lines _ (by decide))),
    C2_New_fails_without_wellFormed _ (Or.inl (not_wellFormed_of_lines _ (by decide))),
    C2_New_fails_without_wellFormed _ (Or.inl (not_wellFormed_of_lines _ (by decide))),
    C2_New_fails_without_wellFormed _ (Or.inr (by
      intro line hl
      have hm := (isLine_iff _ _).mp hl
      have hall : ∀ l ∈ Split '\n' "user\na,b,c\n".toList, l.count ',' ≠ 1 := by decide
      exact hall line hm))⟩

/-- The text of `String()`: one line per stored entry, with the mask for the password. -/
theorem String_loop (keys : List authKey) (desc : GoString) :
    keys.foldl
        (fun desc key => desc ++ Sprintf_username_pass key.username "********".toList) desc =
      desc ++ (keys.map (fun key =>
        "username=".toList ++ key.username ++ ", pass=********\n".toList)).flatten := by
  induction keys generalizing desc with
  | nil => simp
  | cons k ks ih =>
    rw [List.foldl_cons, ih]
    simp [Sprintf_username_pass]

/-- C8: when `New` succeeds on `s` with middleware `a`, `FromOther` on `a` succeeds and
returns a middleware equal to `a`: its `Credentials` is `s`, its `authKeys` are those
of `a`, and `isAuthorized` answers the same on both for every pair. -/
theorem C8_FromOther_roundtrip (s : GoString) (a : AuthMiddleware) (h : New s = .ok a) :
    FromOther a = .ok a ∧ a.Credentials = s ∧
      ∀ b, FromOther a = .ok b →
        b.Credentials = a.Credentials ∧ b.authKeys = a.authKeys ∧
          ∀ u p, isAuthorized b u p = isAuthorized a u p := by
  have hc : a.Credentials = s := ((New_ok_iff s a).mp h).1
  have hf : FromOther a = .ok a := by
    unfold FromOther
    rw [hc]
    exact h
  refine ⟨hf, hc, ?_⟩
  intro b hb
  rw [hf] at hb
  cases hb
  exact ⟨rfl, rfl, fun _ _ => rfl⟩

theorem C8_witness :
    New sampleConfig = .ok sampleHandler.cfg ∧
      FromOther sampleHandler.cfg = .ok sampleHandler.cfg ∧
      sampleHandler.cfg.Credentials = sampleConfig ∧
      ∀ b, FromOther sampleHandler.cfg = .ok b →
        b.Credentials = sampleHandler.cfg.Credentials ∧
          b.authKeys = sampleHandler.cfg.authKeys ∧
          ∀ u p, isAuthorized b u p = isAuthorized sampleHandler.cfg u p :=
  have h : New sampleConfig = .ok sampleHandler.cfg :=
    (New_ok_iff _ _).mpr ⟨by decide, by decide, by decide⟩
  ⟨h, C8_FromOther_roundtrip sampleConfig sampleHandler.cfg h⟩

/-- C9: `String()` renders every stored entry as the line `username=<username>,
pass=********` with a newline, the password replaced by the fixed mask; so two
middlewares whose `authKeys` have the same usernames in the same order have the same
text, whatever their passwords, and the text of a middleware `New` returned is not
empty. -/
theorem C9_String_masks_passwords (c d : AuthMiddleware)
    (h : c.authKeys.map authKey.username = d.authKeys.map authKey.username) :
    c.String = (c.authKeys.map (fun key =>
        "username=".toList ++ key.username ++ ", pass=********\n".toList)).flatten ∧
      c.String = d.String ∧
      ∀ s, New s = .ok c → c.String ≠ [] := by
  have hs : ∀ e : AuthMiddleware, e.String = ((e.authKeys.map authKey.username).map (fun u =>
      "username=".toList ++ u ++ ", pass=********\n".toList)).flatten := by
    intro e
    unfold AuthMiddleware.String
    rw [String_loop]
    simp [List.map_map, Function.comp_def]
  refine ⟨?_, ?_, ?_⟩
  · rw [hs c]
    simp [List.map_map, Function.comp_def]
  · rw [hs c, hs d, h]
  · intro s hn
    have hne : c.authKeys ≠ [] := ((New_ok_iff s c).mp hn).2.2
    rw [hs c]
    cases hk : c.authKeys with
    | nil => exact absurd hk hne
    | cons k ks => simp

theorem C9_witness :
    sampleHandler.cfg.authKeys.map authKey.username =
        sampleOther.authKeys.map authKey.username ∧
      sampleHandler.cfg.String = (sampleHandler.cfg.authKeys.map (fun key =>
        "username=".toList ++ key.username ++ ", pass=********\n".toList)).flatten ∧
      sampleHandler.cfg.String = sampleOther.String ∧
      ∀ s, New s = .ok sampleHandler.cfg → sampleHandler.cfg.String ≠ [] :=
  ⟨by decide, C9_String_masks_passwords sampleHandler.cfg sampleOther (by decide)⟩

/-- C10: every middleware `New` returns has a non-empty `authKeys`, in which every
username and password is non-empty and holds neither a comma nor a newline; so
`isAuthorized` on it is false on every pair whose username or password is empty or
holds a comma or a newline. -/
theorem C10_New_store_invariant (s : GoString) (a : AuthMiddleware) (h : New s = .ok a) :
    a.authKeys ≠ [] ∧
      (∀ k ∈ a.authKeys,
        k.username ≠ [] ∧ k.password ≠ [] ∧ ',' ∉ k.username ∧ '\n' ∉ k.username ∧
          ',' ∉ k.password ∧ '\n' ∉ k.password) ∧
      ∀ u p, (u = [] ∨ p = [] ∨ ',' ∈ u ∨ '\n' ∈ u ∨ ',' ∈ p ∨ '\n' ∈ p) →
        isAuthorized a u p = false := by
  obtain ⟨_, hk, hne⟩ := (New_ok_iff s a).mp h
  have hinv : ∀ k ∈ a.authKeys,
      k.username ≠ [] ∧ k.password ≠ [] ∧ ',' ∉ k.username ∧ '\n' ∉ k.username ∧
        ',' ∉ k.password ∧ '\n' ∉ k.password := by
    intro k hm
    rw [hk] at hm
    obtain ⟨⟨hnl, _⟩, hu, hp, hcu, hcp⟩ := (mem_collected_iff s k).mp hm
    refine ⟨hu, hp, hcu, ?_, hcp, ?_⟩
    · intro e
      exact hnl (List.mem_append_left _ e)
    · intro e
      exact hnl (List.mem_append_right _ (List.mem_cons_of_mem _ e))
  refine ⟨hne, hinv, ?_⟩
  intro u p hbad
  cases hz : isAuthorized a u p with
  | false => rfl
  | true =>
    obtain ⟨h1, h2, h3, h4, h5, h6⟩ := hinv _ ((isAuthorized_iff a u p).mp hz)
    rcases hbad with e | e | e | e | e | e
    · exact absurd e h1
    · exact absurd e h2
    · exact absurd e h3
    · exact absurd e h4
    · exact absurd e h5
    · exact absurd e h6

theorem C10_witness :
    New "user,pass\nbad,,line\n,x\nfoo,bar".toList =
        .ok { Credentials := "user,pass\nbad,,line\n,x\nfoo,bar".toList,
              authKeys := [{ username := "user".toList, password := "pass".toList },
                           { username := "foo".toList, password := "bar".toList }] } ∧
      sampleHandler.cfg.authKeys ≠ [] ∧
      (∀ k ∈ sampleHandler.cfg.authKeys,
        k.username ≠ [] ∧ k.password ≠ [] ∧ ',' ∉ k.username ∧ '\n' ∉ k.username ∧
          ',' ∉ k.password ∧ '\n' ∉ k.password) ∧
      ∀ u p, (u = [] ∨ p = [] ∨ ',' ∈ u ∨ '\n' ∈ u ∨ ',' ∈ p ∨ '\n' ∈ p) →
        isAuthorized sampleHandler.cfg u p = false :=
  ⟨(New_ok_iff _ _).mpr ⟨by decide, by decide, by decide⟩,
    C10_New_store_invariant sampleConfig sampleHandler.cfg
      ((New_ok_iff _ _).mpr ⟨by decide, by decide, by decide⟩)⟩

/-! ## Lemmas on `ServeHTTP` -/

theorem Values.get_set (m : Values) (k v : GoString) : (m.set k v).get k = some v := by
  simp [Values.set, Values.get]

/-- A request without `Authorization` header has no Basic auth. -/
theorem BasicAuth_missing (env : Env) (r : Request) (h : r.authorization = none) :
    env.BasicAuth r = ([], [], false) := by
  simp [Env.BasicAuth, h]

/-- A request whose `Authorization` value is empty or does not parse has no Basic
auth. -/
theorem BasicAuth_malformed (env : Env) (r : Request) (auth : GoString)
    (h : r.authorization = some auth) (hp : auth = [] ∨ env.parseBasicAuth auth = none) :
    env.BasicAuth r = ([], [], false) := by
  rcases hp with hp | hp
  · simp [Env.BasicAuth, h, hp]
  · by_cases he : auth = []
    · simp [Env.BasicAuth, h, he]
    · simp [Env.BasicAuth, h, he, hp]

/-- The branch of `ServeHTTP` for a session that carries `active = "true"`. -/
theorem ServeHTTP_active (env : Env) (a : AuthHandler) (r : Request)
    (hs : (env.Get r).Values.get "active".toList = some "true".toList) :
    a.ServeHTTP env r = [Call.Next r] := by
  unfold AuthHandler.ServeHTTP
  exact if_neg (fun h => h hs)

/-- The reject branch of `ServeHTTP`. -/
theorem ServeHTTP_reject (env : Env) (a : AuthHandler) (r : Request)
    (hs : (env.Get r).Values.get "active".toList ≠ some "true".toList)
    (hc : (env.BasicAuth r).2.2 = false ∨
      isAuthorized a.cfg (env.BasicAuth r).1 (env.BasicAuth r).2.1 = false) :
    a.ServeHTTP env r =
      [Call.WriteHeader 401,
       Call.HeaderSet "WWW-Authenticate".toList "Basic realm=\"Please log in\"".toList] := by
  unfold AuthHandler.ServeHTTP
  rcases hb : env.BasicAuth r with ⟨u, p, ok⟩
  rw [hb] at hc
  simp only [hs, ne_eq, not_false_eq_true, if_true]
  rcases hc with hc | hc
  · simp at hc
    simp [hc, StatusUnauthorized]
  · simp at hc
    simp [hc, StatusUnauthorized]

/-- The accept branch of `ServeHTTP`. -/
theorem ServeHTTP_accept (env : Env) (a : AuthHandler) (r : Request) (u p : GoString)
    (hs : (env.Get r).Values.get "active".toList ≠ some "true".toList)
    (hb : env.BasicAuth r = (u, p, true)) (ha : isAuthorized a.cfg u p = true) :
    a.ServeHTTP env r =
      [Call.SessionsSave { Values := (env.Get r).Values.set "active".toList "true".toList },
       Call.Next r] := by
  unfold AuthHandler.ServeHTTP
  simp only [hs, ne_eq, not_false_eq_true, if_true, hb, ha]
  rfl

/-- Missing, malformed and unauthorized credentials all satisfy the reject test of
`ServeHTTP`, `!ok || !isAuthorized(a.cfg, username, password)`. -/
theorem bad_credentials (env : Env) (a : AuthHandler) (r : Request)
    (hc : r.authorization = none ∨
      (∃ auth, r.authorization = some auth ∧ (auth = [] ∨ env.parseBasicAuth auth = none)) ∨
      ∃ u p, env.BasicAuth r = (u, p, true) ∧ isAuthorized a.cfg u p = false) :
    (env.BasicAuth r).2.2 = false ∨
      isAuthorized a.cfg (env.BasicAuth r).1 (env.BasicAuth r).2.1 = false := by
  rcases hc with h | ⟨auth, h, hp⟩ | ⟨u, p, hb, hz⟩
  · left
    rw [BasicAuth_missing env r h]
  · left
    rw [BasicAuth_malformed env r auth h hp]
  · right
    rw [hb]
    exact hz

/-- The response to a rejected request, on the wire: status 401 and the header block
as it was before `ServeHTTP` ran, that is, empty. -/
theorem respond_reject (env : Env) (next : ResponseWriter → Request → ResponseWriter)
    (a : AuthHandler) (r : Request)
    (h : a.ServeHTTP env r =
      [Call.WriteHeader 401,
       Call.HeaderSet "WWW-Authenticate".toList "Basic realm=\"Please log in\"".toList]) :
    (respond env next a r).status = 401 ∧ (respond env next a r).sent = [] := by
  unfold respond
  rw [h]
  exact ⟨rfl, rfl⟩

/-! ## The request handler: theorems -/

/-- C3: a request whose decoded session does not carry `active = "true"` and whose
Basic auth credentials are missing, malformed, or a pair on which `isAuthorized` is
false: `ServeHTTP` writes status 401, does not call the downstream handler and does
not save a session cookie. -/
theorem C3_bad_credentials_rejected (env : Env) (a : AuthHandler) (r : Request)
    (hs : (env.Get r).Values.get "active".toList ≠ some "true".toList)
    (hc : r.authorization = none ∨
      (∃ auth, r.authorization = some auth ∧ (auth = [] ∨ env.parseBasicAuth auth = none)) ∨
      ∃ u p, env.BasicAuth r = (u, p, true) ∧ isAuthorized a.cfg u p = false) :
    a.ServeHTTP env r =
        [Call.WriteHeader StatusUnauthorized,
         Call.HeaderSet "WWW-Authenticate".toList "Basic realm=\"Please log in\"".toList] ∧
      (∀ next, (respond env next a r).status = 401) ∧
      (∀ q, Call.Next q ∉ a.ServeHTTP env r) ∧
      (∀ session, Call.SessionsSave session ∉ a.ServeHTTP env r) ∧
      (∀ next, Header.Get (respond env next a r).sent "Set-Cookie".toList = none) := by
  have h := ServeHTTP_reject env a r hs (bad_credentials env a r hc)
  refine ⟨h, ?_, ?_, ?_, ?_⟩
  · intro next
    exact (respond_reject env next a r h).1
  · intro q
    rw [h]
    simp
  · intro session
    rw [h]
    simp
  · intro next
    rw [(respond_reject env next a r h).2]
    rfl

theorem C3_witness :
    sampleHandler.ServeHTTP sampleEnv sampleWrong =
        [Call.WriteHeader StatusUnauthorized,
         Call.HeaderSet "WWW-Authenticate".toList "Basic realm=\"Please log in\"".toList] ∧
      (∀ next, (respond sampleEnv next sampleHandler sampleWrong).status = 401) ∧
      (∀ q, Call.Next q ∉ sampleHandler.ServeHTTP sampleEnv sampleWrong) ∧
      (∀ session, Call.SessionsSave session ∉ sampleHandler.ServeHTTP sampleEnv sampleWrong) ∧
      (∀ next,
        Header.Get (respond sampleEnv next sampleHandler sampleWrong).sent
          "Set-Cookie".toList = none) :=
  C3_bad_credentials_rejected sampleEnv sampleHandler sampleWrong (by decide)
    (Or.inr (Or.inr ⟨"user".toList, "wrong".toList, by decide, by decide⟩))

/-- C4: a request whose decoded session does not carry `active = "true"` and whose
Basic auth is well-formed with a pair on which `isAuthorized` is true: `ServeHTTP`
sets `active = "true"` in the session, saves the session to the response, then calls
the downstream handler once, with the same request and the same response writer, and
writes no 401 itself. -/
theorem C4_good_credentials_accepted (env : Env) (a : AuthHandler) (r : Request)
    (u p : GoString)
    (hs : (env.Get r).Values.get "active".toList ≠ some "true".toList)
    (hb : env.BasicAuth r = (u, p, true)) (ha : isAuthorized a.cfg u p = true) :
    a.ServeHTTP env r =
        [Call.SessionsSave { Values := (env.Get r).Values.set "active".toList "true".toList },
         Call.Next r] ∧
      ((env.Get r).Values.set "active".toList "true".toList).get "active".toList =
        some "true".toList ∧
      (a.ServeHTTP env r).count (Call.Next r) = 1 ∧
      (∀ q, Call.Next q ∈ a.ServeHTTP env r → q = r) ∧
      (∀ code, Call.WriteHeader code ∉ a.ServeHTTP env r) ∧
      (∀ next w, replay env next w (a.ServeHTTP env r) =
        next (Call.run env next w
          (Call.SessionsSave
            { Values := (env.Get r).Values.set "active".toList "true".toList })) r) ∧
      (∀ next cookie,
        env.encode ((env.Get r).Values.set "active".toList "true".toList) = some cookie →
        replay env next ResponseWriter.fresh (a.ServeHTTP env r) =
          next { ResponseWriter.fresh with header := [("Set-Cookie".toList, cookie)] } r) := by
  have h := ServeHTTP_accept env a r u p hs hb ha
  refine ⟨h, Values.get_set _ _ _, ?_, ?_, ?_, ?_, ?_⟩
  · rw [h]
    simp [List.count_cons]
  · intro q hq
    rw [h] at hq
    simpa using hq
  · intro code
    rw [h]
    simp
  · intro next w
    rw [h]
    rfl
  · intro next cookie hcookie
    rw [h]
    show next (Call.run env next ResponseWriter.fresh (Call.SessionsSave _)) r = _
    unfold Call.run
    simp only [hcookie]
    rfl

theorem C4_witness :
    sampleHandler.ServeHTTP sampleEnv sampleLogin =
        [Call.SessionsSave
          { Values := (sampleEnv.Get sampleLogin).Values.set "active".toList "true".toList },
         Call.Next sampleLogin] ∧
      ((sampleEnv.Get sampleLogin).Values.set "active".toList "true".toList).get
        "active".toList = some "true".toList ∧
      (sampleHandler.ServeHTTP sampleEnv sampleLogin).count (Call.Next sampleLogin) = 1 ∧
      (∀ q, Call.Next q ∈ sampleHandler.ServeHTTP sampleEnv sampleLogin → q = sampleLogin) ∧
      (∀ code, Call.WriteHeader code ∉ sampleHandler.ServeHTTP sampleEnv sampleLogin) ∧
      (∀ next w, replay sampleEnv next w (sampleHandler.ServeHTTP sampleEnv sampleLogin) =
        next (Call.run sampleEnv next w
          (Call.SessionsSave
            { Values :=
                (sampleEnv.Get sampleLogin).Values.set "active".toList "true".toList }))
          sampleLogin) ∧
      (∀ next cookie,
        sampleEnv.encode
            ((sampleEnv.Get sampleLogin).Values.set "active".toList "true".toList) =
          some cookie →
        replay sampleEnv next ResponseWriter.fresh
            (sampleHandler.ServeHTTP sampleEnv sampleLogin) =
          next { ResponseWriter.fresh with header := [("Set-Cookie".toList, cookie)] }
            sampleLogin) :=
  C4_good_credentials_accepted sampleEnv sampleHandler sampleLogin "user".toList
    "pass".toList (by decide) (by decide) (by decide)

/-- C5: a request whose decoded session carries `active = "true"`: `ServeHTTP` calls the
downstream handler once and does nothing else, whatever the `Authorization` value
(none included), the parsing of it and the credential list are; it writes no status
and saves no session. -/
theorem C5_active_session_forwarded (env : Env) (a : AuthHandler) (r : Request)
    (hs : (env.Get r).Values.get "active".toList = some "true".toList) :
    a.ServeHTTP env r = [Call.Next r] ∧
      (∀ (b : AuthHandler) (auth : Option GoString)
          (parse : GoString → Option (GoString × GoString)),
        b.ServeHTTP { env with parseBasicAuth := parse } { r with authorization := auth } =
          [Call.Next { r with authorization := auth }]) ∧
      (a.ServeHTTP env r).count (Call.Next r) = 1 ∧
      (∀ q, Call.Next q ∈ a.ServeHTTP env r → q = r) ∧
      (∀ code, Call.WriteHeader code ∉ a.ServeHTTP env r) ∧
      (∀ session, Call.SessionsSave session ∉ a.ServeHTTP env r) ∧
      (∀ next w, replay env next w (a.ServeHTTP env r) = next w r) := by
  have h := ServeHTTP_active env a r hs
  refine ⟨h, ?_, ?_, ?_, ?_, ?_, ?_⟩
  · intro b auth parse
    exact ServeHTTP_active _ b _ hs
  · rw [h]
    simp
  · intro q hq
    rw [h] at hq
    simpa using hq
  · intro code
    rw [h]
    simp
  · intro session
    rw [h]
    simp
  · intro next w
    rw [h]
    rfl

theorem C5_witness :
    sampleHandler.ServeHTTP sampleEnv sampleReturning = [Call.Next sampleReturning] ∧
      (∀ (b : AuthHandler) (auth : Option GoString)
          (parse : GoString → Option (GoString × GoString)),
        b.ServeHTTP { sampleEnv with parseBasicAuth := parse }
            { sampleReturning with authorization := auth } =
          [Call.Next { sampleReturning with authorization := auth }]) ∧
      (sampleHandler.ServeHTTP sampleEnv sampleReturning).count
        (Call.Next sampleReturning) = 1 ∧
      (∀ q, Call.Next q ∈ sampleHandler.ServeHTTP sampleEnv sampleReturning →
        q = sampleReturning) ∧
      (∀ code, Call.WriteHeader code ∉ sampleHandler.ServeHTTP sampleEnv sampleReturning) ∧
      (∀ session,
        Call.SessionsSave session ∉ sampleHandler.ServeHTTP sampleEnv sampleReturning) ∧
      (∀ next w,
        replay sampleEnv next w (sampleHandler.ServeHTTP sampleEnv sampleReturning) =
          next w sampleReturning) :=
  C5_active_session_forwarded sampleEnv sampleHandler sampleReturning (by decide)

/-- C6, as stated, fails: a request with the cookie of a session that carries
`active = "true"` is forwarded to the downstream handler, with no 401, both when it has
no `Authorization` header and when it has the Basic auth of a wrong password. -/
theorem C6_counterexample :
    (sampleEnv.Get sampleReturning).Values.get "active".toList = some "true".toList ∧
      sampleReturning.authorization = none ∧
      sampleHandler.ServeHTTP sampleEnv sampleReturning = [Call.Next sampleReturning] ∧
      ¬ (Call.WriteHeader StatusUnauthorized ∈ sampleHandler.ServeHTTP sampleEnv sampleReturning ∧
          ∀ q, Call.Next q ∉ sampleHandler.ServeHTTP sampleEnv sampleReturning) ∧
      (respond sampleEnv sampleNext sampleHandler sampleReturning).status = 200 ∧
      sampleEnv.BasicAuth sampleReturningWrong = ("user".toList, "wrong".toList, true) ∧
      isAuthorized sampleHandler.cfg "user".toList "wrong".toList = false ∧
      sampleHandler.ServeHTTP sampleEnv sampleReturningWrong =
        [Call.Next sampleReturningWrong] ∧
      (respond sampleEnv sampleNext sampleHandler sampleReturningWrong).status = 200 := by
  refine ⟨by decide, by decide, by decide, ?_, by decide, by decide, by decide, by decide,
    by decide⟩
  rintro ⟨h, _⟩
  revert h
  decide

/-- C6, amended: a request with a wrong password, without `Authorization` header or
with a malformed `Authorization` value is rejected by `ServeHTTP` with status 401 and
not forwarded to the downstream handler when its decoded session does not carry
`active = "true"`; when the session carries `active = "true"` the request is
forwarded to the downstream handler and no 401 is written. -/
theorem C6_rejected_unless_session_active (env : Env) (a : AuthHandler) (r : Request)
    (hc : r.authorization = none ∨
      (∃ auth, r.authorization = some auth ∧ (auth = [] ∨ env.parseBasicAuth auth = none)) ∨
      ∃ u p, env.BasicAuth r = (u, p, true) ∧ isAuthorized a.cfg u p = false) :
    ((env.Get r).Values.get "active".toList ≠ some "true".toList →
        Call.WriteHeader StatusUnauthorized ∈ a.ServeHTTP env r ∧
          (∀ next, (respond env next a r).status = 401) ∧
          ∀ q, Call.Next q ∉ a.ServeHTTP env r) ∧
      ((env.Get r).Values.get "active".toList = some "true".toList →
        a.ServeHTTP env r = [Call.Next r] ∧
          ∀ code, Call.WriteHeader code ∉ a.ServeHTTP env r) := by
  constructor
  · intro hs
    have h := ServeHTTP_reject env a r hs (bad_credentials env a r hc)
    refine ⟨?_, ?_, ?_⟩
    · rw [h]
      simp [StatusUnauthorized]
    · intro next
      exact (respond_reject env next a r h).1
    · intro q
      rw [h]
      simp
  · intro hs
    have h := ServeHTTP_active env a r hs
    refine ⟨h, ?_⟩
    intro code
    rw [h]
    simp

theorem C6_witness :
    ((sampleEnv.Get sampleMalformed).Values.get "active".toList ≠ some "true".toList →
        Call.WriteHeader StatusUnauthorized ∈ sampleHandler.ServeHTTP sampleEnv sampleMalformed ∧
          (∀ next, (respond sampleEnv next sampleHandler sampleMalformed).status = 401) ∧
          ∀ q, Call.Next q ∉ sampleHandler.ServeHTTP sampleEnv sampleMalformed) ∧
      ((sampleEnv.Get sampleMalformed).Values.get "active".toList = some "true".toList →
        sampleHandler.ServeHTTP sampleEnv sampleMalformed = [Call.Next sampleMalformed] ∧
          ∀ code, Call.WriteHeader code ∉ sampleHandler.ServeHTTP sampleEnv sampleMalformed) :=
  C6_rejected_unless_session_active sampleEnv sampleHandler sampleMalformed
    (Or.inr (Or.inl ⟨"blablabla=".toList, by decide, Or.inr (by decide)⟩))

/-- C7, a defect of the code: on a rejected request `ServeHTTP` calls
`WriteHeader(401)` first and `Header().Set("WWW-Authenticate", ...)` after it, so
the response goes out with status 401 and an empty header block; the challenge
header is only in the map of the handler, too late to be sent. Evaluated on a request
without cookie and without `Authorization` header. -/
theorem C7_challenge_header_not_sent :
    sampleHandler.ServeHTTP sampleEnv sampleBare =
        [Call.WriteHeader 401,
         Call.HeaderSet "WWW-Authenticate".toList "Basic realm=\"Please log in\"".toList] ∧
      (respond sampleEnv sampleNext sampleHandler sampleBare).status = 401 ∧
      (respond sampleEnv sampleNext sampleHandler sampleBare).sent = [] ∧
      Header.Get (respond sampleEnv sampleNext sampleHandler sampleBare).sent
        "WWW-Authenticate".toList = none ∧
      Header.Get (respond sampleEnv sampleNext sampleHandler sampleBare).header
        "WWW-Authenticate".toList = some "Basic realm=\"Please log in\"".toList := by
  decide

end Sauth
